import Mathlib

/-!
Verification development for the DockDB backend's connection-lifecycle core:
the Input Safety Gate (`validation.service.ts`), the Secret Codec
(`encryption.service.ts`), the Connection Cache (`cache.service.ts`) and the
Connection Gatekeeper (`mongodb.service.ts`, with `retryWithBackoff` from
`helpers.util.ts`).

JavaScript values handled by the Safety Gate are modelled by the inductive
type `JValue` (finite JSON-like trees, mirroring plain objects, arrays,
strings, numbers, booleans, `null` and `undefined`).  Byte buffers are
`List Nat` with every element `< 256`; JavaScript strings are Lean `String`
(or `List Char` in the codec, where the `iv:ciphertext` format is split
character by character).  Stateful services are embedded by explicit state
passing: each cache-touching operation returns its result together with the
new cache state and the list of clients whose `close()` was invoked, so that
frame ("the cache is unchanged") and resource ("the replaced client is never
closed") properties become provable statements.
-/

/-! ## JavaScript value model -/

mutual
/-- Finite JavaScript values: the inputs of the Safety Gate functions. -/
inductive JValue : Type where
  | vNull
  | vUndefined
  | vBool (b : Bool)
  | vNum (n : Int)
  | vStr (s : String)
  | vArr (elems : JElems)
  | vObj (fields : JFields)
deriving Repr, DecidableEq
/-- Elements of a JavaScript array, in order. -/
inductive JElems : Type where
  | nil
  | cons (head : JValue) (tail : JElems)
deriving Repr, DecidableEq
/-- Own enumerable fields of a plain JavaScript object, in insertion order,
as visited by a `for (const key in obj)` loop. -/
inductive JFields : Type where
  | nil
  | cons (key : String) (val : JValue) (tail : JFields)
deriving Repr, DecidableEq
end

/-- Number of elements of a `JElems` list. -/
def JElems.length : JElems → Nat
  | .nil => 0
  | .cons _ tl => 1 + JElems.length tl

/-- The JavaScript test `typeof v === 'object'`: true exactly for plain
objects, arrays and `null`. -/
def isObjTy : JValue → Bool
  | .vNull => true
  | .vArr _ => true
  | .vObj _ => true
  | _ => false

/-- The JavaScript test `typeof v === 'object' && v !== null`. -/
def isObjNonNull : JValue → Bool
  | .vArr _ => true
  | .vObj _ => true
  | _ => false

/-- The JavaScript truthiness test `!v` (negated): objects and arrays are
always truthy; `null`, `undefined`, `false`, `0` and `''` are falsy. -/
def isTruthy : JValue → Bool
  | .vNull => false
  | .vUndefined => false
  | .vBool b => b
  | .vNum n => decide (n ≠ 0)
  | .vStr s => decide (s ≠ "")
  | .vArr _ => true
  | .vObj _ => true

/-- Substring test on character lists: `subList pat hay` is true iff `pat`
occurs contiguously in `hay` (the semantics of JavaScript
`String.prototype.includes`). -/
def subList (pat : List Char) : List Char → Bool
  | [] => pat.isEmpty
  | c :: t => pat.isPrefixOf (c :: t) || subList pat t

/-- JavaScript `s.includes(pat)`. -/
def strIncludes (s pat : String) : Bool :=
  subList pat.data s.data

/-- JavaScript `s.trim()`: strip leading and trailing whitespace. -/
def jsTrim (s : String) : String :=
  ⟨((s.data.dropWhile Char.isWhitespace).reverse.dropWhile Char.isWhitespace).reverse⟩

/-- JavaScript `s.startsWith(pat)`. -/
def jsStartsWith (s pat : String) : Bool :=
  pat.data.isPrefixOf s.data

/-- ASCII lower-casing of one character (the case-insensitive `i` regex
flag only concerns the ASCII letters of the fixed patterns). -/
def lowerAscii (c : Char) : Char :=
  if 65 ≤ c.toNat ∧ c.toNat ≤ 90 then Char.ofNat (c.toNat + 32) else c

/-- ASCII lower-casing of a string. -/
def jsToLower (s : String) : String :=
  ⟨s.data.map lowerAscii⟩

/-! ## Input Safety Gate (`validation.service.ts`) -/

/-- The fixed denylist `DANGEROUS_OPERATORS` of `ValidationService`. -/
def DANGEROUS_OPERATORS : List String :=
  ["$where", "$function", "mapReduce", "$accumulator", "eval"]

/-- `MAX_QUERY_DEPTH` of `ValidationService`. -/
def MAX_QUERY_DEPTH : Nat := 5

/-- `MAX_DOCUMENT_SIZE` of `ValidationService` (16 MiB). -/
def MAX_DOCUMENT_SIZE : Nat := 16 * 1024 * 1024

/-- The `{ valid: boolean; error?: string }` verdict returned by the Safety
Gate validators. -/
structure Verdict where
  valid : Bool
  error : Option String
deriving Repr, DecidableEq

/-- `ValidationService.validateConnectionString`: rejects empty/whitespace
strings, strings not starting with a MongoDB URI scheme, and
case-insensitive occurrences of the fixed code-injection patterns. -/
def validateConnectionString (connectionString : String) : Verdict :=
  if (jsTrim connectionString).length = 0 then
    { valid := false, error := some "Connection string cannot be empty" }
  else if ¬ (jsStartsWith connectionString "mongodb://" = true
      ∨ jsStartsWith connectionString "mongodb+srv://" = true) then
    { valid := false
      error := some "Connection string must start with mongodb:// or mongodb+srv://" }
  else if ["javascript:", "<script", "eval(", "function("].any
      (fun pat => strIncludes (jsToLower connectionString) pat) then
    { valid := false, error := some "Connection string contains invalid characters" }
  else
    { valid := true, error := none }

/-- `ValidationService.validateName`: rejects empty names, names with a
character outside `[A-Za-z0-9_-]`, and names longer than 64 characters.
`kind` is the `type` parameter (`'database'` or `'collection'`). -/
def validateName (name : String) (kind : String) : Verdict :=
  if (jsTrim name).length = 0 then
    { valid := false, error := some s!"{kind} name cannot be empty" }
  else if ¬ (name.length > 0
      ∧ name.data.all (fun c => c.isAlpha || c.isDigit || c = '_' || c = '-')) then
    { valid := false
      error := some
        s!"{kind} name can only contain alphanumeric characters, underscores, and hyphens" }
  else if name.length > 64 then
    { valid := false, error := some s!"{kind} name cannot exceed 64 characters" }
  else
    { valid := true, error := none }

/-- True iff the string value `v` contains one of the `DANGEROUS_OPERATORS`
as a substring (the string-value check inside
`containsDangerousOperators`); false for non-strings. -/
def strValueDangerous : JValue → Bool
  | .vStr s => DANGEROUS_OPERATORS.any (fun op => strIncludes s op)
  | _ => false

mutual
/-- `ValidationService.containsDangerousOperators`: walks objects and arrays
(`for key in obj`), reporting a denylisted key, a string value containing a
denylisted name as a substring, or a dangerous nested structure. -/
def containsDangerousOperators : JValue → Bool
  | .vObj fs => cdoFields fs
  | .vArr xs => cdoElems xs
  | _ => false
/-- Field loop of `containsDangerousOperators`: keys of a plain object are
its property names, so the key check applies. -/
def cdoFields : JFields → Bool
  | .nil => false
  | .cons k v tl =>
    DANGEROUS_OPERATORS.contains k || strValueDangerous v
      || (isObjTy v && containsDangerousOperators v) || cdoFields tl
/-- Element loop of `containsDangerousOperators`: keys of an array are its
numeric indices, which never match the denylist, so only values are
checked. -/
def cdoElems : JElems → Bool
  | .nil => false
  | .cons v tl =>
    strValueDangerous v || (isObjTy v && containsDangerousOperators v)
      || cdoElems tl
end

mutual
/-- `ValidationService.getObjectDepth`: depth of the longest chain of nested
non-null objects/arrays below `v`, with the root contributing
`currentDepth`. -/
def getObjectDepth : JValue → Nat → Nat
  | .vObj fs, currentDepth => depthFields fs currentDepth
  | .vArr xs, currentDepth => depthElems xs currentDepth
  | _, currentDepth => currentDepth
/-- Field loop of `getObjectDepth`. -/
def depthFields : JFields → Nat → Nat
  | .nil, currentDepth => currentDepth
  | .cons _ v tl, currentDepth =>
    if isObjNonNull v then
      max (getObjectDepth v (currentDepth + 1)) (depthFields tl currentDepth)
    else
      depthFields tl currentDepth
/-- Element loop of `getObjectDepth`. -/
def depthElems : JElems → Nat → Nat
  | .nil, currentDepth => currentDepth
  | .cons v tl, currentDepth =>
    if isObjNonNull v then
      max (getObjectDepth v (currentDepth + 1)) (depthElems tl currentDepth)
    else
      depthElems tl currentDepth
end

/-- `ValidationService.validateQuery`: falsy or non-object queries are valid;
otherwise the query fails on a dangerous operator or on nesting depth above
`MAX_QUERY_DEPTH`. -/
def validateQuery (query : JValue) : Verdict :=
  if ¬ (isTruthy query ∧ isObjTy query) then
    { valid := true, error := none }
  else if containsDangerousOperators query then
    { valid := false
      error := some "Query contains dangerous operators that are not allowed" }
  else if getObjectDepth query 0 > MAX_QUERY_DEPTH then
    { valid := false
      error := some s!"Query depth exceeds maximum allowed depth of {MAX_QUERY_DEPTH}" }
  else
    { valid := true, error := none }

mutual
/-- `ValidationService.sanitizeQuery`: non-objects and `null` are returned
unchanged; objects and arrays are rebuilt, skipping fields whose key is in
`DANGEROUS_OPERATORS` and recursing into non-null object values. -/
def sanitizeQuery : JValue → JValue
  | .vObj fs => .vObj (sanitizeFields fs)
  | .vArr xs => .vArr (sanitizeElems xs)
  | v => v
/-- Field loop of `sanitizeQuery`. -/
def sanitizeFields : JFields → JFields
  | .nil => .nil
  | .cons k v tl =>
    if DANGEROUS_OPERATORS.contains k then
      sanitizeFields tl
    else if isObjNonNull v then
      .cons k (sanitizeQuery v) (sanitizeFields tl)
    else
      .cons k v (sanitizeFields tl)
/-- Element loop of `sanitizeQuery`: array indices are never denylisted, so
every element survives (recursively sanitized when it is a non-null
object). -/
def sanitizeElems : JElems → JElems
  | .nil => .nil
  | .cons v tl =>
    if isObjNonNull v then
      .cons (sanitizeQuery v) (sanitizeElems tl)
    else
      .cons v (sanitizeElems tl)
end

/-- `ValidationService.sanitizeName`: keeps only `[A-Za-z0-9_-]`
characters. -/
def sanitizeName (name : String) : String :=
  ⟨name.data.filter (fun c => c.isAlpha || c.isDigit || c = '_' || c = '-')⟩

/-- Hexadecimal digit character for a value `< 16` (lower case, as produced
by Node's `toString('hex')` and by JSON `\u00XX` escapes). -/
def hexDigitChar (n : Nat) : Char :=
  if n < 10 then Char.ofNat (48 + n) else Char.ofNat (87 + n)

/-- JSON string escaping as performed by `JSON.stringify` on a string value:
quote, backslash and control characters are escaped, everything else is
copied. -/
def jsonEscapeChar (c : Char) : String :=
  if c = '"' then "\\\""
  else if c = '\\' then "\\\\"
  else if c = '\x08' then "\\b"
  else if c = '\x09' then "\\t"
  else if c = '\x0a' then "\\n"
  else if c = '\x0c' then "\\f"
  else if c = '\x0d' then "\\r"
  else if c.toNat < 32 then
    String.mk ['\\', 'u', '0', '0', hexDigitChar (c.toNat / 16), hexDigitChar (c.toNat % 16)]
  else String.mk [c]

/-- A JSON string literal for `s` (used for string values and object keys by
the `JSON.stringify` model). -/
def quoteJsonString (s : String) : String :=
  "\"" ++ String.join (s.data.map jsonEscapeChar) ++ "\""

mutual
/-- Model of the platform builtin `JSON.stringify` on `JValue` inputs:
returns `none` exactly where the builtin returns the *value* `undefined`
(top-level `undefined`); `undefined` inside arrays serializes as `null` and
`undefined`-valued object fields are skipped. -/
def jsonStringify : JValue → Option String
  | .vNull => some "null"
  | .vUndefined => none
  | .vBool b => some (if b then "true" else "false")
  | .vNum n => some (toString n)
  | .vStr s => some (quoteJsonString s)
  | .vArr xs => some ("[" ++ jsonArrItems xs ++ "]")
  | .vObj fs => some ("\x7b" ++ jsonObjItems fs ++ "\x7d")
/-- Comma-joined serializations of array elements. -/
def jsonArrItems : JElems → String
  | .nil => ""
  | .cons v .nil => (jsonStringify v).getD "null"
  | .cons v tl => (jsonStringify v).getD "null" ++ "," ++ jsonArrItems tl
/-- Comma-joined `"key":value` serializations of object fields, skipping
fields whose value does not serialize. -/
def jsonObjItems : JFields → String
  | .nil => ""
  | .cons k v tl =>
    match jsonStringify v with
    | none => jsonObjItems tl
    | some sv =>
      let rest := jsonObjItems tl
      if rest = "" then quoteJsonString k ++ ":" ++ sv
      else quoteJsonString k ++ ":" ++ sv ++ "," ++ rest
end

/-- A JavaScript exception value (as opposed to a returned verdict). -/
inductive JsException where
  | typeError (msg : String)
deriving Repr, DecidableEq

/-- `ValidationService.validateDocumentSize`:
`Buffer.byteLength(JSON.stringify(document))` compared against
`MAX_DOCUMENT_SIZE`.  When `JSON.stringify` yields the value `undefined`
(input `undefined`), `Buffer.byteLength` throws a `TypeError`, which this
embedding surfaces as `Except.error`. -/
def validateDocumentSize (document : JValue) : Except JsException Verdict :=
  match jsonStringify document with
  | none =>
    .error (.typeError "the string argument must be of type string: received undefined")
  | some s =>
    let size := s.utf8ByteSize
    if size > MAX_DOCUMENT_SIZE then
      .ok { valid := false
            error := some s!"Document size ({size} bytes) exceeds maximum allowed size of 16MB" }
    else
      .ok { valid := true, error := none }

mutual
/-- Model of JavaScript `String(v)` (the ToString coercion applied by
`parseInt` to its argument). -/
def jsToString : JValue → String
  | .vNull => "null"
  | .vUndefined => "undefined"
  | .vBool b => if b then "true" else "false"
  | .vNum n => toString n
  | .vStr s => s
  | .vArr xs => jsArrJoin xs
  | .vObj _ => "[object Object]"
/-- `Array.prototype.join(',')`: `null`/`undefined` elements become empty
strings. -/
def jsArrJoin : JElems → String
  | .nil => ""
  | .cons v .nil => jsElemStr v
  | .cons v tl => jsElemStr v ++ "," ++ jsArrJoin tl
/-- Element rendering inside `Array.prototype.join`. -/
def jsElemStr : JValue → String
  | .vNull => ""
  | .vUndefined => ""
  | v => jsToString v
end

/-- True for the hexadecimal digit characters accepted by `parseInt` in
base 16. -/
def isHexDigitChar (c : Char) : Bool :=
  c.isDigit || ('a' ≤ c && c ≤ 'f') || ('A' ≤ c && c ≤ 'F')

/-- Numeric value of a hexadecimal digit character. -/
def hexDigitVal (c : Char) : Nat :=
  if c.isDigit then c.toNat - 48
  else if 'a' ≤ c && c ≤ 'f' then c.toNat - 87
  else if 'A' ≤ c && c ≤ 'F' then c.toNat - 55
  else 0

/-- Model of the platform builtin `parseInt(v)` (radix argument omitted):
coerce to string, skip leading whitespace, read an optional sign, detect a
`0x`/`0X` prefix (hexadecimal), and parse the longest digit run; `none` is
`NaN`. -/
def jsParseInt (v : JValue) : Option Int :=
  let cs := (jsToString v).data.dropWhile (fun c => c.isWhitespace)
  let (neg, cs2) : Bool × List Char :=
    match cs with
    | '-' :: r => (true, r)
    | '+' :: r => (false, r)
    | r => (false, r)
  let (base, cs3) : Nat × List Char :=
    match cs2 with
    | '0' :: 'x' :: r => (16, r)
    | '0' :: 'X' :: r => (16, r)
    | r => (10, r)
  let ds := cs3.takeWhile (fun c => if base = 16 then isHexDigitChar c else c.isDigit)
  if ds.isEmpty then none
  else
    let m : Nat := ds.foldl (fun acc c => acc * base + hexDigitVal c) 0
    some (if neg then -(m : Int) else (m : Int))

/-- The verdict-or-parsed-pair returned by
`ValidationService.validatePagination`. -/
structure PageVerdict where
  valid : Bool
  error : Option String
  page : Option Int
  limit : Option Int
deriving Repr, DecidableEq

/-- `ValidationService.validatePagination`: both parameters must parse to
positive integers and the limit may not exceed 100. -/
def validatePagination (page limit : JValue) : PageVerdict :=
  match jsParseInt page with
  | none =>
    { valid := false, error := some "Page must be a positive integer"
      page := none, limit := none }
  | some parsedPage =>
    if parsedPage < 1 then
      { valid := false, error := some "Page must be a positive integer"
        page := none, limit := none }
    else
      match jsParseInt limit with
      | none =>
        { valid := false, error := some "Limit must be a positive integer"
          page := none, limit := none }
      | some parsedLimit =>
        if parsedLimit < 1 then
          { valid := false, error := some "Limit must be a positive integer"
            page := none, limit := none }
        else if parsedLimit > 100 then
          { valid := false, error := some "Limit cannot exceed 100"
            page := none, limit := none }
        else
          { valid := true, error := none
            page := some parsedPage, limit := some parsedLimit }

/-! ## Connection Cache (`cache.service.ts`)

Clients are opaque and modelled as `Nat` identifiers.  The JavaScript `Map`
backing the cache is an association list in insertion order with unique
keys.  Each mutating operation returns the new state together with the list
of clients whose `close()` was invoked by the operation; `close()` failures
are swallowed by the source (`try { await entry.client.close() } catch {}`),
which the embedding mirrors by letting an arbitrary `closeThrows` predicate
decide whether a close fails — the returned state never depends on it. -/

/-- One value of the cache's `Map`: `{ client, timestamp, connectionId }`
(the redundant `connectionId` field is the key and is not repeated). -/
structure CacheEntry where
  client : Nat
  timestamp : Nat
deriving Repr, DecidableEq

/-- The mutable state of `CacheService`: its `Map` as an association list. -/
structure CacheState where
  entries : List (String × CacheEntry)
deriving Repr, DecidableEq

/-- `Map.prototype.get`: first binding of the key. -/
def mapLookup (k : String) : List (String × CacheEntry) → Option CacheEntry
  | [] => none
  | (k', v) :: rest => if k' = k then some v else mapLookup k rest

/-- `Map.prototype.set`: replace the existing binding in place, else append
(JavaScript `Map` preserves first-insertion iteration order). -/
def mapSet (k : String) (v : CacheEntry) : List (String × CacheEntry) →
    List (String × CacheEntry)
  | [] => [(k, v)]
  | (k', v') :: rest =>
    if k' = k then (k, v) :: rest else (k', v') :: mapSet k v rest

/-- `Map.prototype.delete`: remove the binding of the key. -/
def mapDelete (k : String) : List (String × CacheEntry) →
    List (String × CacheEntry)
  | [] => []
  | (k', v') :: rest =>
    if k' = k then rest else (k', v') :: mapDelete k rest

/-- Default `CLIENT_CACHE_TTL` (5 minutes). -/
def DEFAULT_CLIENT_CACHE_TTL : Nat := 300000

/-- `CacheService.set`: stores `{ client, timestamp: Date.now() }` under the
id.  No client is ever closed here: the returned close list is empty even
when an existing entry is overwritten. -/
def cacheSet (now : Nat) (connectionId : String) (client : Nat)
    (st : CacheState) : CacheState × List Nat :=
  (⟨mapSet connectionId ⟨client, now⟩ st.entries⟩, [])

/-- `CacheService.has`: plain `Map` membership, with no expiry check and no
timestamp bump. -/
def cacheHas (connectionId : String) (st : CacheState) : Bool :=
  (mapLookup connectionId st.entries).isSome

/-- `CacheService.delete`: looks the entry up, closes its client (errors
swallowed — the result does not depend on `closeThrows`), and removes the
binding.  Absent ids are a no-op. -/
def cacheDelete (closeThrows : Nat → Bool) (connectionId : String)
    (st : CacheState) : CacheState × List Nat :=
  match mapLookup connectionId st.entries with
  | none => (st, [])
  | some entry => (⟨mapDelete connectionId st.entries⟩, [entry.client])

/-- `CacheService.get`: absent ids yield `null`; an entry older than the TTL
is evicted via `delete` and yields `null`; otherwise the timestamp is bumped
to `now` and the client returned. -/
def cacheGet (closeThrows : Nat → Bool) (ttl now : Nat)
    (connectionId : String) (st : CacheState) :
    Option Nat × CacheState × List Nat :=
  match mapLookup connectionId st.entries with
  | none => (none, st, [])
  | some entry =>
    if now - entry.timestamp > ttl then
      let (st', closed) := cacheDelete closeThrows connectionId st
      (none, st', closed)
    else
      (some entry.client, ⟨mapSet connectionId ⟨entry.client, now⟩ st.entries⟩, [])

/-! ## Connection Gatekeeper (`mongodb.service.ts`, `helpers.util.ts`)

The MongoDB driver is the external collaborator: a dial is an oracle
`connect : Nat → Except DriverErr Nat` giving the outcome of the i-th
`MongoClient.connect` attempt, and `listDatabases` / `serverInfo` are
oracles on the dialed client. -/

/-- The relevant fields of an error thrown by the driver: `name`, `message`
and `code`, the fields inspected by `testConnection`'s classifier. -/
structure DriverErr where
  name : String
  message : String
  code : Int
deriving Repr, DecidableEq

/-- A JavaScript value thrown by the Gatekeeper: either a fresh
`new Error(message)` or a rethrown driver error.  `rawUndefined` is the
`throw lastError` of `retryWithBackoff` when no attempt ever ran
(`maxRetries = 0`, impossible at the call sites, which pass 3). -/
inductive Thrown where
  | errMsg (msg : String)
  | raw (e : DriverErr)
  | rawUndefined
deriving Repr, DecidableEq

/-- Loop of `retryWithBackoff` (`helpers.util.ts`), from attempt index `i`
with `remaining` attempts left and `last` the latest caught error.  Returns
the outcome, the list of `sleep` delays performed, and the number of
attempts made. -/
def retryAux (f : Nat → Except DriverErr Nat) (baseDelay : Nat) :
    Nat → Nat → Option DriverErr → Except (Option DriverErr) Nat × List Nat × Nat
  | _, 0, last => (.error last, [], 0)
  | i, remaining + 1, _ =>
    match f i with
    | .ok a => (.ok a, [], 1)
    | .error e =>
      if remaining = 0 then
        (.error (some e), [], 1)
      else
        let (res, delays, attempts) := retryAux f baseDelay (i + 1) remaining (some e)
        (res, baseDelay * 2 ^ i :: delays, attempts + 1)

/-- `retryWithBackoff(fn, maxRetries, baseDelay)`: up to `maxRetries`
attempts; after a failed attempt `i` that is not the last, sleeps
`baseDelay * 2^i`; when every attempt fails the last caught error is
rethrown unchanged. -/
def retryWithBackoff (f : Nat → Except DriverErr Nat)
    (maxRetries baseDelay : Nat) :
    Except (Option DriverErr) Nat × List Nat × Nat :=
  retryAux f baseDelay 0 maxRetries none

/-- The value rethrown by a caller that catches `retryWithBackoff`'s
exhaustion error: the raw last driver error (no wrapping). -/
def thrownOfRetry : Option DriverErr → Thrown
  | some e => .raw e
  | none => .rawUndefined

deriving instance DecidableEq for Except

/-- Everything observable about one `createClient` call: its
return-or-throw, the cache state it leaves behind, the clients it closed,
the backoff delays slept and the number of dial attempts. -/
structure CreateResult where
  result : Except Thrown Nat
  cache : CacheState
  closed : List Nat
  delays : List Nat
  attempts : Nat
deriving Repr, DecidableEq

/-- `MongoDBService.createClient`: returns the cached client when
`cacheService.get` hits; otherwise validates the connection string (invalid
strings throw `new Error(validation.error)` without dialing), dials through
`retryWithBackoff(…, 3, 1000)`, caches a successful client under the id,
and rethrows the raw error of an exhausted retry. -/
def createClient (connect : Nat → Except DriverErr Nat)
    (closeThrows : Nat → Bool) (ttl now : Nat)
    (connectionId connectionString : String) (st : CacheState) : CreateResult :=
  match cacheGet closeThrows ttl now connectionId st with
  | (some cachedClient, st1, closed1) =>
    ⟨.ok cachedClient, st1, closed1, [], 0⟩
  | (none, st1, closed1) =>
    let validation := validateConnectionString connectionString
    if validation.valid then
      match retryWithBackoff connect 3 1000 with
      | (.ok client, delays, attempts) =>
        ⟨.ok client, (cacheSet now connectionId client st1).1, closed1, delays, attempts⟩
      | (.error oe, delays, attempts) =>
        ⟨.error (thrownOfRetry oe), st1, closed1, delays, attempts⟩
    else
      ⟨.error (.errMsg (validation.error.getD "undefined")), st1, closed1, [], 0⟩

/-- `MongoDBService.getClient`: delegates to `cacheService.get`. -/
def getClient (closeThrows : Nat → Bool) (ttl now : Nat)
    (connectionId : String) (st : CacheState) :
    Option Nat × CacheState × List Nat :=
  cacheGet closeThrows ttl now connectionId st

/-- `MongoDBService.isConnectionActive`: delegates to `cacheService.has`. -/
def isConnectionActive (connectionId : String) (st : CacheState) : Bool :=
  cacheHas connectionId st

/-- `testConnection`'s error classifier: the `if`/`else` chain over the
caught error's `message`, `name` and `code`.  `none` models a caught
`undefined` (unreachable from `retryWithBackoff(…, 3, …)`). -/
def classifyConnError : Option DriverErr → String
  | none => "Failed to connect to MongoDB"
  | some e =>
    if strIncludes e.message "IP" || strIncludes e.message "whitelist" then
      "Unable to connect to MongoDB cluster. Check IP whitelist and credentials."
    else if strIncludes e.message "ENOTFOUND" || strIncludes e.message "getaddrinfo" then
      "DNS resolution failed. Check your connection string and network."
    else if e.name = "MongoServerError" then
      if e.code = 18 then "Authentication failed: Invalid username or password"
      else if e.code = 13 then "Authorization failed: User does not have required permissions"
      else "MongoDB Error: " ++ e.message
    else if e.name = "MongoNetworkError" then
      "Network error: Unable to reach MongoDB server. Check firewall and IP whitelist."
    else if strIncludes e.message "authentication" then
      "Authentication failed: Invalid credentials"
    else if strIncludes e.message "timeout" || strIncludes e.message "timed out" then
      "Connection timeout: Server did not respond in time. Check network and Atlas status."
    else if strIncludes e.message "ECONNREFUSED" then
      "Connection refused: MongoDB server is not accepting connections."
    else
      "Failed to connect to MongoDB"

/-- The `adminDb.serverInfo()` document fields used by `testConnection`
(`host` may be absent: `serverInfo.host || 'unknown'`). -/
structure SrvInfo where
  version : String
  host : Option String
deriving Repr, DecidableEq

/-- The result object of `MongoDBService.testConnection`. -/
structure TestOutcome where
  success : Bool
  databases : Option (List String)
  serverInfo : Option (String × String)
  error : Option String
deriving Repr, DecidableEq

/-- `MongoDBService.testConnection`: validates the string, dials a throwaway
client through `retryWithBackoff(…, 3, 1000)`, lists databases and server
info, classifies any caught error, and in a `finally` block closes the
throwaway client whenever one was created.  The cache state is threaded
through unchanged — the function never touches `cacheService`. -/
def testConnection (connect : Nat → Except DriverErr Nat)
    (listDatabases : Nat → Except DriverErr (List String))
    (serverInfo : Nat → Except DriverErr SrvInfo)
    (connectionString : String) (st : CacheState) :
    TestOutcome × CacheState × List Nat :=
  let validation := validateConnectionString connectionString
  if validation.valid = false then
    (⟨false, none, none, validation.error⟩, st, [])
  else
    match (retryWithBackoff connect 3 1000).1 with
    | .error oe =>
      (⟨false, none, none, some (classifyConnError oe)⟩, st, [])
    | .ok client =>
      match listDatabases client with
      | .error e =>
        (⟨false, none, none, some (classifyConnError (some e))⟩, st, [client])
      | .ok databaseNames =>
        match serverInfo client with
        | .error e =>
          (⟨false, none, none, some (classifyConnError (some e))⟩, st, [client])
        | .ok info =>
          (⟨true, some databaseNames, some (info.version, info.host.getD "unknown"), none⟩,
            st, [client])

/-! ## Secret Codec (`encryption.service.ts`)

`encrypt`/`decrypt` run AES-256-CBC through Node's `crypto` module.  The
AES-256 block permutation under the fixed 32-byte key is the external
primitive: it is abstracted as a pair of functions `E`, `D` on 16-byte
blocks (hypotheses of the round-trip theorem state that `D` inverts `E` and
that `E` maps blocks to blocks; the process-fixed key is absorbed into the
pair).  Everything the service itself does — drawing a fresh IV, CBC
chaining, PKCS#7 padding, hex encoding, the `iv:ciphertext` format and the
`split(':')` format check — is modelled concretely.  Plaintext is its UTF-8
byte sequence (`List Nat`, each `< 256`); ciphertext strings are
`List Char`. -/

/-- Hex encoding of a byte list (`Buffer.prototype.toString('hex')`),
two lower-case digits per byte. -/
def bytesToHex : List Nat → List Char
  | [] => []
  | b :: bs => hexDigitChar (b / 16) :: hexDigitChar (b % 16) :: bytesToHex bs

/-- Hex decoding (`Buffer.from(s, 'hex')`): consumes digit pairs and stops
at the first incomplete or non-hex pair, as Node does. -/
def hexToBytes : List Char → List Nat
  | c1 :: c2 :: rest =>
    if isHexDigitChar c1 && isHexDigitChar c2 then
      (16 * hexDigitVal c1 + hexDigitVal c2) :: hexToBytes rest
    else []
  | _ => []

/-- Bytewise XOR of two equal-length buffers (CBC chaining step). -/
def xorBytes (a b : List Nat) : List Nat :=
  List.zipWith (fun x y => x ^^^ y) a b

/-- Split a byte buffer into successive 16-byte cipher blocks (the last
chunk is shorter when the length is not a multiple of 16). -/
def chunk16 : List Nat → List (List Nat)
  | [] => []
  | b :: bs => ((b :: bs).take 16) :: chunk16 ((b :: bs).drop 16)
termination_by l => l.length
decreasing_by simp; omega

/-- PKCS#7 padding to a 16-byte boundary, as applied by
`cipher.update`/`cipher.final`: append `r = 16 - len % 16` copies of the
byte `r` (always `1 ≤ r ≤ 16`). -/
def pkcs7pad (bs : List Nat) : List Nat :=
  bs ++ List.replicate (16 - bs.length % 16) (16 - bs.length % 16)

/-- PKCS#7 padding check and removal, as performed by `decipher.final`:
the last byte `r` must satisfy `1 ≤ r ≤ 16` and the last `r` bytes must all
equal `r`; `none` is the "bad decrypt" error. -/
def pkcs7unpad (bs : List Nat) : Option (List Nat) :=
  match bs.getLast? with
  | none => none
  | some r =>
    if 1 ≤ r ∧ r ≤ 16 ∧ r ≤ bs.length ∧ (bs.drop (bs.length - r)).all (fun x => x = r) then
      some (bs.take (bs.length - r))
    else none

/-- CBC encryption of a block sequence: each plaintext block is XORed with
the previous ciphertext block (initially the IV) before the block cipher
`E` is applied. -/
def cbcEncBlocks (E : List Nat → List Nat) (prev : List Nat) :
    List (List Nat) → List (List Nat)
  | [] => []
  | p :: ps =>
    let c := E (xorBytes prev p)
    c :: cbcEncBlocks E c ps

/-- CBC decryption of a block sequence: each ciphertext block is decrypted
with `D` and XORed with the previous ciphertext block (initially the
IV). -/
def cbcDecBlocks (D : List Nat → List Nat) (prev : List Nat) :
    List (List Nat) → List (List Nat)
  | [] => []
  | c :: cs => xorBytes prev (D c) :: cbcDecBlocks D c cs

/-- `EncryptionService.encrypt` with the fresh random IV made explicit as a
parameter (`crypto.randomBytes(16)` is the environment's randomness):
hex-encoded IV and hex-encoded CBC ciphertext of the padded plaintext,
joined by `':'`. -/
def encrypt (E : List Nat → List Nat) (iv : List Nat) (textBytes : List Nat) :
    List Char :=
  bytesToHex iv ++ ':' :: bytesToHex (cbcEncBlocks E iv (chunk16 (pkcs7pad textBytes))).flatten

/-- JavaScript `String.prototype.split(sep)` for a one-character separator:
always returns at least one (possibly empty) segment. -/
def splitOnChar (sep : Char) : List Char → List (List Char)
  | [] => [[]]
  | c :: cs =>
    if c = sep then [] :: splitOnChar sep cs
    else
      match splitOnChar sep cs with
      | [] => [[c]]
      | seg :: rest => (c :: seg) :: rest

/-- `EncryptionService.decrypt`: split on `':'`, require exactly two parts,
hex-decode IV and data, CBC-decrypt and strip the padding.  Every failure —
wrong part count, a malformed IV (`createDecipheriv` requires 16 bytes),
misaligned ciphertext or a bad padding — is caught and rethrown as the
single `Failed to decrypt data` error. -/
def decrypt (D : List Nat → List Nat) (encryptedText : List Char) :
    Except String (List Nat) :=
  match splitOnChar ':' encryptedText with
  | [ivHex, dataHex] =>
    let iv := hexToBytes ivHex
    let ct := hexToBytes dataHex
    if iv.length = 16 ∧ ct.length % 16 = 0 ∧ 0 < ct.length then
      match pkcs7unpad (cbcDecBlocks D iv (chunk16 ct)).flatten with
      | some plain => .ok plain
      | none => .error "Failed to decrypt data"
    else .error "Failed to decrypt data"
  | _ => .error "Failed to decrypt data"

/-! ## Specification-side predicates -/

mutual
/-- True iff some object reachable from `v` (through object fields and
array elements) has a field whose key equals `k`. -/
def hasKeyDeep (k : String) : JValue → Bool
  | .vObj fs => hasKeyDeepFields k fs
  | .vArr xs => hasKeyDeepElems k xs
  | _ => false
/-- Field part of `hasKeyDeep`. -/
def hasKeyDeepFields (k : String) : JFields → Bool
  | .nil => false
  | .cons k' v tl => k' = k || hasKeyDeep k v || hasKeyDeepFields k tl
/-- Element part of `hasKeyDeep`. -/
def hasKeyDeepElems (k : String) : JElems → Bool
  | .nil => false
  | .cons v tl => hasKeyDeep k v || hasKeyDeepElems k tl
end

/-- True iff some object reachable from `v` has a field whose key is one of
the `DANGEROUS_OPERATORS`. -/
def hasDangerousKeyDeep (v : JValue) : Bool :=
  DANGEROUS_OPERATORS.any (fun op => hasKeyDeep op v)

mutual
/-- Specification-side sanitizer, written from the spec's own words for
`sanitizeQuery`: "strips any key matching the denylist and recurses into
surviving nested structures, leaving arrays and non-denylisted keys
intact".  An object is rebuilt keeping its non-denylisted fields in order
(each value sanitized recursively); an array keeps all its elements in
order (each sanitized recursively); every other value is returned
unchanged.  Unlike the source's `sanitizeQuery` it has no `typeof` guard on
field values — it recurses into every surviving value — so its equality
with `sanitizeQuery` (claim C1) is a genuine refinement check, and a
sanitizer that dropped or altered anything but denylisted-keyed subtrees
could not equal it. -/
def specSanitize : JValue → JValue
  | .vObj fs => .vObj (specSanitizeFields fs)
  | .vArr xs => .vArr (specSanitizeElems xs)
  | v => v
/-- Field part of `specSanitize`: exactly the fields whose key is in the
denylist are removed (with their whole subtree); every other field is kept,
in order, with its value sanitized. -/
def specSanitizeFields : JFields → JFields
  | .nil => .nil
  | .cons k v tl =>
    if k ∈ DANGEROUS_OPERATORS then specSanitizeFields tl
    else .cons k (specSanitize v) (specSanitizeFields tl)
/-- Element part of `specSanitize`: arrays are left intact — every element
is kept, in order, sanitized. -/
def specSanitizeElems : JElems → JElems
  | .nil => .nil
  | .cons v tl => .cons (specSanitize v) (specSanitizeElems tl)
end

/-- A well-formed 16-byte cipher block. -/
def IsBlock (b : List Nat) : Prop :=
  b.length = 16 ∧ ∀ x ∈ b, x < 256

/-- Singleton-object constructor, for concrete test queries. -/
def obj1 (k : String) (v : JValue) : JValue :=
  .vObj (.cons k v .nil)

/-- The concrete query of the spec's scenario B:
`{a: {b: {c: {d: {e: {f: 1}}}}}}`. -/
def scenarioB : JValue :=
  obj1 "a" (obj1 "b" (obj1 "c" (obj1 "d" (obj1 "e" (obj1 "f" (.vNum 1))))))

/-- Scenario B's query wrapped in one more level of nesting:
`{a: {b: {c: {d: {e: {f: {g: 1}}}}}}}`. -/
def scenarioB7 : JValue :=
  obj1 "a" (obj1 "b" (obj1 "c" (obj1 "d" (obj1 "e" (obj1 "f" (obj1 "g" (.vNum 1)))))))

/-! ## Theorems -/

theorem mapLookup_mapSet_self (k : String) (v : CacheEntry)
    (l : List (String × CacheEntry)) : mapLookup k (mapSet k v l) = some v := by
  induction l with
  | nil => simp [mapSet, mapLookup]
  | cons hd tl ih =>
    obtain ⟨k', v'⟩ := hd
    by_cases h : k' = k <;> simp [mapSet, mapLookup, h, ih]

theorem mapLookup_mapSet_ne (k' k : String) (v : CacheEntry)
    (l : List (String × CacheEntry)) (hne : k' ≠ k) :
    mapLookup k' (mapSet k v l) = mapLookup k' l := by
  have hne' : k ≠ k' := Ne.symm hne
  induction l with
  | nil => simp [mapSet, mapLookup, hne']
  | cons hd tl ih =>
    obtain ⟨k'', v''⟩ := hd
    by_cases h : k'' = k
    · rw [h]
      simp [mapSet, mapLookup, hne']
    · simp [mapSet, mapLookup, h, ih]

/-- Claim C4 counterexample: with the default depth ceiling 5,
`validateQuery({a: {b: {c: {d: {e: {f: 1}}}}}})` returns a *valid* verdict,
not the invalid one the claim states: the object's depth — root at 0 — is
5, which does not exceed the ceiling. -/
theorem claim_c4_counterexample :
    validateQuery scenarioB = { valid := true, error := none } := by decide

/-- Claim C4, amended: `validateQuery({a: {b: {c: {d: {e: {f: 1}}}}}})` has
depth exactly 5 — the inclusive ceiling — and is valid; one further level of
nesting gives depth 6 and an invalid verdict. -/
theorem claim_c4 :
    validateQuery scenarioB = { valid := true, error := none }
    ∧ getObjectDepth scenarioB 0 = 5
    ∧ validateQuery scenarioB7 =
        { valid := false
          error := some "Query depth exceeds maximum allowed depth of 5" }
    ∧ getObjectDepth scenarioB7 0 = 6 := by decide

/-- Claim C5 counterexample: overwriting the cache entry of `"a"` (holding
client 1) with client 2 closes nothing — `CacheService.set` returns an
empty close list, so the replaced client 1 is dropped unclosed, contrary to
the claim that the previous client is closed before replacement. -/
theorem claim_c5_counterexample :
    cacheSet 200 "a" 2 ⟨[("a", ⟨1, 100⟩)]⟩ = (⟨[("a", ⟨2, 200⟩)]⟩, []) := by
  decide

/-- Claim C5, amended: `CacheService.set` stores the new entry with the
current timestamp, overwriting in place and leaving other ids untouched,
but it closes no client whatsoever — a replaced client is dropped
unclosed. -/
theorem claim_c5 (now : Nat) (connectionId : String) (client : Nat)
    (st : CacheState) :
    (cacheSet now connectionId client st).2 = []
    ∧ mapLookup connectionId (cacheSet now connectionId client st).1.entries =
        some ⟨client, now⟩
    ∧ ∀ id', id' ≠ connectionId →
        mapLookup id' (cacheSet now connectionId client st).1.entries =
          mapLookup id' st.entries := by
  refine ⟨rfl, mapLookup_mapSet_self _ _ _, fun id' h => mapLookup_mapSet_ne _ _ _ _ h⟩

/-- Claim C5 witness: instantiating the amended claim at a state holding
client 1 under `"a"`. -/
theorem claim_c5_witness :
    mapLookup "b" (cacheSet 200 "a" 2 ⟨[("a", ⟨1, 100⟩)]⟩).1.entries =
      mapLookup "b" (⟨[("a", ⟨1, 100⟩)]⟩ : CacheState).entries :=
  (claim_c5 200 "a" 2 ⟨[("a", ⟨1, 100⟩)]⟩).2.2 "b" (by decide)

/-- Claim C6 counterexample: `validateDocumentSize(undefined)` does not
return a verdict — `JSON.stringify(undefined)` is `undefined` and
`Buffer.byteLength(undefined)` throws a `TypeError`, so the function is not
total over its inputs as the claim states. -/
theorem claim_c6_counterexample :
    validateDocumentSize JValue.vUndefined =
      Except.error
        (JsException.typeError
          "the string argument must be of type string: received undefined") := rfl

/-- Claim C6, amended: among the modelled (finite, non-cyclic) inputs,
`validateDocumentSize` throws exactly on the input `undefined` — on every
other value it returns a verdict; the remaining Safety Gate validators are
verdict-valued total functions of this embedding by construction. -/
theorem claim_c6 (v : JValue) :
    (validateDocumentSize v).isOk = false ↔ v = JValue.vUndefined := by
  cases v <;>
    simp only [validateDocumentSize, jsonStringify] <;>
    (repeat' split) <;>
    simp [Except.isOk, Except.toBool]

/-- Claim C10: sanitization does not establish validity — for the query
`{a: "$where"}`, `sanitizeQuery` is the identity (no denylisted *key*
occurs, and string values are never altered), yet `validateQuery` of the
sanitized query is still invalid, because the string *value* contains a
denylisted name as a substring. -/
theorem claim_c10 :
    sanitizeQuery (obj1 "a" (.vStr "$where")) = obj1 "a" (.vStr "$where")
    ∧ (validateQuery (sanitizeQuery (obj1 "a" (.vStr "$where")))).valid = false
    ∧ ∀ s : String, sanitizeQuery (JValue.vStr s) = JValue.vStr s :=
  ⟨by decide, by decide, fun _ => rfl⟩

theorem mapLookup_eq_none_of_not_mem_keys (k : String)
    (l : List (String × CacheEntry)) (h : k ∉ l.map Prod.fst) :
    mapLookup k l = none := by
  induction l with
  | nil => rfl
  | cons hd tl ih =>
    obtain ⟨k', v⟩ := hd
    simp only [List.map_cons, List.mem_cons, not_or] at h
    simp [mapLookup, Ne.symm h.1, ih h.2]

theorem mapLookup_mapDelete_self (k : String) (l : List (String × CacheEntry))
    (h : (l.map Prod.fst).Nodup) : mapLookup k (mapDelete k l) = none := by
  induction l with
  | nil => rfl
  | cons hd tl ih =>
    obtain ⟨k', v⟩ := hd
    simp only [List.map_cons, List.nodup_cons] at h
    by_cases hk : k' = k
    · rw [hk] at h
      simp [mapDelete, hk, mapLookup_eq_none_of_not_mem_keys k tl h.1]
    · simp [mapDelete, hk, mapLookup, ih h.2]

/-- Claim C8: after `CacheService.delete(id)`, `has(id)` is false and
`get(id)` returns null; deleting the already-absent id again is a no-op
that changes nothing, closes nothing, and — close errors being swallowed —
this holds whatever the `close()` behaviour (`closeThrows`) is. -/
theorem claim_c8 (closeThrows : Nat → Bool) (ttl now : Nat)
    (connectionId : String) (st : CacheState)
    (hnd : (st.entries.map Prod.fst).Nodup) :
    cacheHas connectionId (cacheDelete closeThrows connectionId st).1 = false
    ∧ (cacheGet closeThrows ttl now connectionId
        (cacheDelete closeThrows connectionId st).1).1 = none
    ∧ cacheDelete closeThrows connectionId
        (cacheDelete closeThrows connectionId st).1 =
        ((cacheDelete closeThrows connectionId st).1, []) := by
  cases hlk : mapLookup connectionId st.entries with
  | none => simp [cacheDelete, hlk, cacheHas, cacheGet]
  | some e =>
    have hnone : mapLookup connectionId (mapDelete connectionId st.entries) = none :=
      mapLookup_mapDelete_self _ _ hnd
    simp [cacheDelete, hlk, cacheHas, cacheGet, hnone]

/-- Claim C8 witness: a concrete one-entry cache whose `close()` fails. -/
theorem claim_c8_witness :
    cacheHas "a" (cacheDelete (fun _ => true) "a" ⟨[("a", ⟨1, 0⟩)]⟩).1 = false :=
  (claim_c8 (fun _ => true) 300000 5 "a" ⟨[("a", ⟨1, 0⟩)]⟩ (by decide)).1

/-- Claim C9: on an entry whose age exceeds the TTL but which no sweep or
`get` has yet removed, `isConnectionActive(id)` — a bare `has(id)` with no
TTL check — is true, while `getClient(id)` on the same state evicts the
entry (closing its client) and returns null: membership and retrievability
disagree on expired entries. -/
theorem claim_c9 (closeThrows : Nat → Bool) (ttl now : Nat)
    (connectionId : String) (st : CacheState) (e : CacheEntry)
    (hf : mapLookup connectionId st.entries = some e)
    (hexp : now - e.timestamp > ttl) :
    isConnectionActive connectionId st = true
    ∧ getClient closeThrows ttl now connectionId st =
        (none, ⟨mapDelete connectionId st.entries⟩, [e.client]) := by
  constructor
  · simp [isConnectionActive, cacheHas, hf]
  · simp [getClient, cacheGet, cacheDelete, hf, hexp]

/-- Claim C9 witness: entry stored at time 0, looked at just past the
default five-minute TTL. -/
theorem claim_c9_witness :
    getClient (fun _ => false) DEFAULT_CLIENT_CACHE_TTL 300001 "a"
        ⟨[("a", ⟨7, 0⟩)]⟩ =
      (none, ⟨[]⟩, [7]) :=
  (claim_c9 (fun _ => false) DEFAULT_CLIENT_CACHE_TTL 300001 "a"
    ⟨[("a", ⟨7, 0⟩)]⟩ ⟨7, 0⟩ rfl (by decide)).2

/-- Claim C7: `testConnection` leaves the cache untouched in every branch
(it never stores its throwaway client), and the throwaway client is closed
exactly when one was created — whatever the outcomes of the
database-listing and server-info steps are. -/
theorem claim_c7 (connect : Nat → Except DriverErr Nat)
    (listDatabases : Nat → Except DriverErr (List String))
    (serverInfo : Nat → Except DriverErr SrvInfo)
    (cs : String) (st : CacheState) :
    (testConnection connect listDatabases serverInfo cs st).2.1 = st
    ∧ (testConnection connect listDatabases serverInfo cs st).2.2 =
        (if (validateConnectionString cs).valid then
          match (retryWithBackoff connect 3 1000).1 with
          | .ok c => [c]
          | .error _ => []
        else []) := by
  cases hv : (validateConnectionString cs).valid with
  | false => simp [testConnection, hv]
  | true =>
    cases hr : (retryWithBackoff connect 3 1000).1 with
    | error oe => simp [testConnection, hv, hr]
    | ok c =>
      cases hl : listDatabases c with
      | error e => simp [testConnection, hv, hr, hl]
      | ok dbs =>
        cases hsi : serverInfo c with
        | error e => simp [testConnection, hv, hr, hl, hsi]
        | ok info => simp [testConnection, hv, hr, hl, hsi]

/-- Claim C3 counterexample: when every dial attempt fails, `createClient`
rethrows the *raw* driver error of the final attempt (here a
`MongoNetworkError`), not a `ConnectionFailedError` carrying a classified
reason — no such wrapping exists on this path. -/
theorem claim_c3_counterexample :
    createClient (fun _ => .error ⟨"MongoNetworkError", "connect ECONNREFUSED 127.0.0.1:27017", 0⟩)
        (fun _ => false) 300000 0 "c1" "mongodb://localhost:27017" ⟨[]⟩ =
      ⟨.error (.raw ⟨"MongoNetworkError", "connect ECONNREFUSED 127.0.0.1:27017", 0⟩),
        ⟨[]⟩, [], [1000, 2000], 3⟩ := by decide

/-- Claim C3, amended: on a cache miss with a valid connection string,
`createClient` dials with bounded exponential backoff — at most 3 attempts,
sleeping `1000 * 2^i` ms after each failed non-final attempt `i`; a client
obtained on any attempt is stored in the Cache under the id and returned;
and when every attempt fails the raw driver error of the last attempt
propagates to the caller unwrapped (classification into user-facing
messages happens only in `testConnection`). -/
theorem claim_c3 (connect : Nat → Except DriverErr Nat)
    (closeThrows : Nat → Bool) (ttl now : Nat)
    (connectionId connectionString : String) (st : CacheState)
    (hmiss : mapLookup connectionId st.entries = none)
    (hvalid : (validateConnectionString connectionString).valid = true) :
    (∀ c, connect 0 = .ok c →
        createClient connect closeThrows ttl now connectionId connectionString st =
          ⟨.ok c, (cacheSet now connectionId c st).1, [], [], 1⟩)
    ∧ (∀ e0 c, connect 0 = .error e0 → connect 1 = .ok c →
        createClient connect closeThrows ttl now connectionId connectionString st =
          ⟨.ok c, (cacheSet now connectionId c st).1, [], [1000], 2⟩)
    ∧ (∀ e0 e1 c, connect 0 = .error e0 → connect 1 = .error e1 →
        connect 2 = .ok c →
        createClient connect closeThrows ttl now connectionId connectionString st =
          ⟨.ok c, (cacheSet now connectionId c st).1, [], [1000, 2000], 3⟩)
    ∧ (∀ e0 e1 e2, connect 0 = .error e0 → connect 1 = .error e1 →
        connect 2 = .error e2 →
        createClient connect closeThrows ttl now connectionId connectionString st =
          ⟨.error (.raw e2), st, [], [1000, 2000], 3⟩) := by
  have hget : cacheGet closeThrows ttl now connectionId st = (none, st, []) := by
    simp [cacheGet, hmiss]
  refine ⟨?_, ?_, ?_, ?_⟩
  · intro c h0
    simp [createClient, hget, hvalid, retryWithBackoff, retryAux, h0]
  · intro e0 c h0 h1
    simp [createClient, hget, hvalid, retryWithBackoff, retryAux, h0, h1]
  · intro e0 e1 c h0 h1 h2
    simp [createClient, hget, hvalid, retryWithBackoff, retryAux, h0, h1, h2]
  · intro e0 e1 e2 h0 h1 h2
    simp [createClient, hget, hvalid, retryWithBackoff, retryAux, h0, h1, h2,
      thrownOfRetry]

/-- Claim C3 witness: a dial that succeeds on the first attempt is cached
under the id (one attempt, no backoff sleeps). -/
theorem claim_c3_witness :
    createClient (fun _ => .ok 42) (fun _ => false) 300000 7 "c1"
        "mongodb://localhost:27017" ⟨[]⟩ =
      ⟨.ok 42, (cacheSet 7 "c1" 42 ⟨[]⟩).1, [], [], 1⟩ :=
  (claim_c3 (fun _ => .ok 42) (fun _ => false) 300000 7 "c1"
    "mongodb://localhost:27017" ⟨[]⟩ rfl (by decide)).1 42 rfl

theorem hasKeyDeep_isObjTy (k : String) (v : JValue)
    (h : hasKeyDeep k v = true) : isObjTy v = true := by
  cases v <;> simp_all [hasKeyDeep, isObjTy]

theorem hasKeyDeep_eq_false_of_not_objNonNull (k : String) (v : JValue)
    (h : isObjNonNull v = false) : hasKeyDeep k v = false := by
  cases v <;> simp_all [hasKeyDeep, isObjNonNull]

mutual
theorem hasKeyDeep_cdo (k : String) (hk : DANGEROUS_OPERATORS.contains k = true) :
    ∀ v : JValue, hasKeyDeep k v = true → containsDangerousOperators v = true
  | .vObj fs, h => by
    simp only [hasKeyDeep] at h
    simpa [containsDangerousOperators] using hasKeyDeepFields_cdo k hk fs h
  | .vArr xs, h => by
    simp only [hasKeyDeep] at h
    simpa [containsDangerousOperators] using hasKeyDeepElems_cdo k hk xs h
  | .vNull, h => by simp [hasKeyDeep] at h
  | .vUndefined, h => by simp [hasKeyDeep] at h
  | .vBool _, h => by simp [hasKeyDeep] at h
  | .vNum _, h => by simp [hasKeyDeep] at h
  | .vStr _, h => by simp [hasKeyDeep] at h
theorem hasKeyDeepFields_cdo (k : String)
    (hk : DANGEROUS_OPERATORS.contains k = true) :
    ∀ fs : JFields, hasKeyDeepFields k fs = true → cdoFields fs = true
  | .nil, h => by simp [hasKeyDeepFields] at h
  | .cons k' v tl, h => by
    simp only [hasKeyDeepFields, Bool.or_eq_true, decide_eq_true_eq] at h
    rcases h with (hkey | hv) | htl
    · have hmem : k ∈ DANGEROUS_OPERATORS := by simpa using hk
      rw [hkey]
      simp [cdoFields, hmem]
    · have hobj := hasKeyDeep_isObjTy k v hv
      have hcdo := hasKeyDeep_cdo k hk v hv
      simp [cdoFields, hobj, hcdo]
    · simp [cdoFields, hasKeyDeepFields_cdo k hk tl htl]
theorem hasKeyDeepElems_cdo (k : String)
    (hk : DANGEROUS_OPERATORS.contains k = true) :
    ∀ xs : JElems, hasKeyDeepElems k xs = true → cdoElems xs = true
  | .nil, h => by simp [hasKeyDeepElems] at h
  | .cons v tl, h => by
    simp only [hasKeyDeepElems, Bool.or_eq_true] at h
    rcases h with hv | htl
    · have hobj := hasKeyDeep_isObjTy k v hv
      have hcdo := hasKeyDeep_cdo k hk v hv
      simp [cdoElems, hobj, hcdo]
    · simp [cdoElems, hasKeyDeepElems_cdo k hk tl htl]
end

mutual
theorem sanitizeQuery_removes (k : String)
    (hk : DANGEROUS_OPERATORS.contains k = true) :
    ∀ v : JValue, hasKeyDeep k (sanitizeQuery v) = false
  | .vObj fs => by
    simpa [sanitizeQuery, hasKeyDeep] using sanitizeFields_removes k hk fs
  | .vArr xs => by
    simpa [sanitizeQuery, hasKeyDeep] using sanitizeElems_removes k hk xs
  | .vNull => rfl
  | .vUndefined => rfl
  | .vBool _ => rfl
  | .vNum _ => rfl
  | .vStr _ => rfl
theorem sanitizeFields_removes (k : String)
    (hk : DANGEROUS_OPERATORS.contains k = true) :
    ∀ fs : JFields, hasKeyDeepFields k (sanitizeFields fs) = false
  | .nil => rfl
  | .cons k' v tl => by
    by_cases hd : DANGEROUS_OPERATORS.contains k' = true
    · have hmem : k' ∈ DANGEROUS_OPERATORS := by simpa using hd
      simp [sanitizeFields, hmem, sanitizeFields_removes k hk tl]
    · have hmem : k' ∉ DANGEROUS_OPERATORS := by simpa using hd
      have hne : k' ≠ k := fun he => hd (he ▸ hk)
      by_cases ho : isObjNonNull v = true
      · simp [sanitizeFields, hmem, ho, hasKeyDeepFields, hne,
          sanitizeQuery_removes k hk v, sanitizeFields_removes k hk tl]
      · have hv : hasKeyDeep k v = false :=
          hasKeyDeep_eq_false_of_not_objNonNull k v (by simpa using ho)
        simp [sanitizeFields, hmem, ho, hasKeyDeepFields, hne, hv,
          sanitizeFields_removes k hk tl]
theorem sanitizeElems_removes (k : String)
    (hk : DANGEROUS_OPERATORS.contains k = true) :
    ∀ xs : JElems, hasKeyDeepElems k (sanitizeElems xs) = false
  | .nil => rfl
  | .cons v tl => by
    by_cases ho : isObjNonNull v = true
    · simp [sanitizeElems, ho, hasKeyDeepElems,
        sanitizeQuery_removes k hk v, sanitizeElems_removes k hk tl]
    · have hv : hasKeyDeep k v = false :=
        hasKeyDeep_eq_false_of_not_objNonNull k v (by simpa using ho)
      simp [sanitizeElems, ho, hasKeyDeepElems, hv, sanitizeElems_removes k hk tl]
end

mutual
theorem sanitizeQuery_id :
    ∀ v : JValue, (∀ k ∈ DANGEROUS_OPERATORS, hasKeyDeep k v = false) →
      sanitizeQuery v = v
  | .vObj fs, h => by
    have hf : ∀ k ∈ DANGEROUS_OPERATORS, hasKeyDeepFields k fs = false := by
      intro k hkmem
      simpa [hasKeyDeep] using h k hkmem
    simp [sanitizeQuery, sanitizeFields_id fs hf]
  | .vArr xs, h => by
    have hx : ∀ k ∈ DANGEROUS_OPERATORS, hasKeyDeepElems k xs = false := by
      intro k hkmem
      simpa [hasKeyDeep] using h k hkmem
    simp [sanitizeQuery, sanitizeElems_id xs hx]
  | .vNull, _ => rfl
  | .vUndefined, _ => rfl
  | .vBool _, _ => rfl
  | .vNum _, _ => rfl
  | .vStr _, _ => rfl
theorem sanitizeFields_id :
    ∀ fs : JFields, (∀ k ∈ DANGEROUS_OPERATORS, hasKeyDeepFields k fs = false) →
      sanitizeFields fs = fs
  | .nil, _ => rfl
  | .cons k' v tl, h => by
    have hd : ¬ DANGEROUS_OPERATORS.contains k' = true := by
      intro hc
      have hmem : k' ∈ DANGEROUS_OPERATORS := by simpa using hc
      have := h k' hmem
      simp [hasKeyDeepFields] at this
    have hv : ∀ k ∈ DANGEROUS_OPERATORS, hasKeyDeep k v = false := by
      intro k hkmem
      have := h k hkmem
      simp only [hasKeyDeepFields, Bool.or_eq_false_iff] at this
      exact this.1.2
    have htl : ∀ k ∈ DANGEROUS_OPERATORS, hasKeyDeepFields k tl = false := by
      intro k hkmem
      have := h k hkmem
      simp only [hasKeyDeepFields, Bool.or_eq_false_iff] at this
      exact this.2
    have hmem : k' ∉ DANGEROUS_OPERATORS := by simpa using hd
    by_cases ho : isObjNonNull v = true
    · simp [sanitizeFields, hmem, ho, sanitizeQuery_id v hv, sanitizeFields_id tl htl]
    · simp [sanitizeFields, hmem, ho, sanitizeFields_id tl htl]
theorem sanitizeElems_id :
    ∀ xs : JElems, (∀ k ∈ DANGEROUS_OPERATORS, hasKeyDeepElems k xs = false) →
      sanitizeElems xs = xs
  | .nil, _ => rfl
  | .cons v tl, h => by
    have hv : ∀ k ∈ DANGEROUS_OPERATORS, hasKeyDeep k v = false := by
      intro k hkmem
      have := h k hkmem
      simp only [hasKeyDeepElems, Bool.or_eq_false_iff] at this
      exact this.1
    have htl : ∀ k ∈ DANGEROUS_OPERATORS, hasKeyDeepElems k tl = false := by
      intro k hkmem
      have := h k hkmem
      simp only [hasKeyDeepElems, Bool.or_eq_false_iff] at this
      exact this.2
    by_cases ho : isObjNonNull v = true
    · simp [sanitizeElems, ho, sanitizeQuery_id v hv, sanitizeElems_id tl htl]
    · simp [sanitizeElems, ho, sanitizeElems_id tl htl]
end

theorem sanitizeElems_length :
    ∀ xs : JElems, JElems.length (sanitizeElems xs) = JElems.length xs
  | .nil => rfl
  | .cons v tl => by
    by_cases ho : isObjNonNull v = true <;>
      simp [sanitizeElems, ho, JElems.length, sanitizeElems_length tl]

theorem hasDangerousKeyDeep_eq_false_iff (v : JValue) :
    hasDangerousKeyDeep v = false ↔
      ∀ k ∈ DANGEROUS_OPERATORS, hasKeyDeep k v = false := by
  simp [hasDangerousKeyDeep, List.any_eq_false]

theorem sanitizeQuery_no_dangerous (v : JValue) :
    hasDangerousKeyDeep (sanitizeQuery v) = false := by
  rw [hasDangerousKeyDeep_eq_false_iff]
  intro k hkmem
  exact sanitizeQuery_removes k (by simpa using hkmem) v

theorem specSanitize_eq_self_of_not_objNonNull (v : JValue)
    (h : isObjNonNull v = false) : specSanitize v = v := by
  cases v <;> simp_all [specSanitize, isObjNonNull]

mutual
theorem sanitizeQuery_eq_specSanitize :
    ∀ v : JValue, sanitizeQuery v = specSanitize v
  | .vObj fs => by
    simp [sanitizeQuery, specSanitize, sanitizeFields_eq_specSanitizeFields fs]
  | .vArr xs => by
    simp [sanitizeQuery, specSanitize, sanitizeElems_eq_specSanitizeElems xs]
  | .vNull => rfl
  | .vUndefined => rfl
  | .vBool _ => rfl
  | .vNum _ => rfl
  | .vStr _ => rfl
theorem sanitizeFields_eq_specSanitizeFields :
    ∀ fs : JFields, sanitizeFields fs = specSanitizeFields fs
  | .nil => rfl
  | .cons k v tl => by
    by_cases hd : k ∈ DANGEROUS_OPERATORS
    · simp [sanitizeFields, specSanitizeFields, hd,
        sanitizeFields_eq_specSanitizeFields tl]
    · by_cases ho : isObjNonNull v = true
      · simp [sanitizeFields, specSanitizeFields, hd, ho,
          sanitizeQuery_eq_specSanitize v, sanitizeFields_eq_specSanitizeFields tl]
      · simp [sanitizeFields, specSanitizeFields, hd, ho,
          sanitizeFields_eq_specSanitizeFields tl,
          specSanitize_eq_self_of_not_objNonNull v (by simpa using ho)]
theorem sanitizeElems_eq_specSanitizeElems :
    ∀ xs : JElems, sanitizeElems xs = specSanitizeElems xs
  | .nil => rfl
  | .cons v tl => by
    by_cases ho : isObjNonNull v = true
    · simp [sanitizeElems, specSanitizeElems, ho,
        sanitizeQuery_eq_specSanitize v, sanitizeElems_eq_specSanitizeElems tl]
    · simp [sanitizeElems, specSanitizeElems, ho,
        sanitizeElems_eq_specSanitizeElems tl,
        specSanitize_eq_self_of_not_objNonNull v (by simpa using ho)]
end

/-- Claim C1: a query object with a `$where` key at any nesting depth is
rejected by `validateQuery`; and on *every* input — in particular on the
`$where`-containing ones — `sanitizeQuery` coincides with `specSanitize`,
the erasure written from the spec's words, which removes exactly the
denylisted-keyed fields with their subtrees and keeps everything else
intact: surviving fields in order with their values (recursively
sanitized), arrays elementwise.  On the claimed input the output therefore
contains no denylisted key at any depth. -/
theorem claim_c1 (fs : JFields)
    (h : hasKeyDeep "$where" (JValue.vObj fs) = true) :
    (validateQuery (JValue.vObj fs)).valid = false
    ∧ sanitizeQuery (JValue.vObj fs) = specSanitize (JValue.vObj fs)
    ∧ (∀ v : JValue, sanitizeQuery v = specSanitize v)
    ∧ hasDangerousKeyDeep (sanitizeQuery (JValue.vObj fs)) = false := by
  have hcdo : containsDangerousOperators (JValue.vObj fs) = true :=
    hasKeyDeep_cdo "$where" (by decide) _ h
  refine ⟨?_, sanitizeQuery_eq_specSanitize _, sanitizeQuery_eq_specSanitize,
    sanitizeQuery_no_dangerous _⟩
  simp [validateQuery, isTruthy, isObjTy, hcdo]

/-- Claim C1 witness: the one-field query `{$where: 1}`. -/
theorem claim_c1_witness :
    (validateQuery (JValue.vObj (.cons "$where" (.vNum 1) .nil))).valid = false :=
  (claim_c1 (.cons "$where" (.vNum 1) .nil) (by decide)).1

theorem natXorCancel (x y : Nat) : x ^^^ (x ^^^ y) = y := by
  rw [← Nat.xor_assoc, Nat.xor_self, Nat.zero_xor]

theorem xorBytes_cancel (a : List Nat) :
    ∀ p, a.length = p.length → xorBytes a (xorBytes a p) = p := by
  induction a with
  | nil =>
    intro p h
    cases p with
    | nil => rfl
    | cons y ys => simp at h
  | cons x xs ih =>
    intro p h
    cases p with
    | nil => simp at h
    | cons y ys =>
      have h' : xs.length = ys.length := by simpa using h
      simp only [xorBytes, List.zipWith_cons_cons, natXorCancel]
      simpa [xorBytes] using ih ys h'

theorem xorBytes_lt (a : List Nat) :
    ∀ b, (∀ x ∈ a, x < 256) → (∀ x ∈ b, x < 256) →
      ∀ x ∈ xorBytes a b, x < 256 := by
  induction a with
  | nil => intro b _ _ x hx; simp [xorBytes] at hx
  | cons y ys ih =>
    intro b ha hb x hx
    cases b with
    | nil => simp [xorBytes] at hx
    | cons z zs =>
      simp only [xorBytes, List.zipWith_cons_cons, List.mem_cons] at hx
      rcases hx with rfl | hx
      · have h8 : (256 : Nat) = 2 ^ 8 := rfl
        rw [h8]
        exact Nat.xor_lt_two_pow (h8 ▸ ha y (by simp)) (h8 ▸ hb z (by simp))
      · exact ih zs (fun u hu => ha u (by simp [hu])) (fun u hu => hb u (by simp [hu])) x hx

theorem xorBytes_isBlock {a b : List Nat} (ha : IsBlock a) (hb : IsBlock b) :
    IsBlock (xorBytes a b) :=
  ⟨by simp [xorBytes, ha.1, hb.1], xorBytes_lt a b ha.2 hb.2⟩

theorem cbcEncBlocks_isBlock (E : List Nat → List Nat)
    (hE : ∀ b, IsBlock b → IsBlock (E b)) :
    ∀ ps prev, IsBlock prev → (∀ p ∈ ps, IsBlock p) →
      ∀ c ∈ cbcEncBlocks E prev ps, IsBlock c := by
  intro ps
  induction ps with
  | nil => intro prev _ _ c hc; simp [cbcEncBlocks] at hc
  | cons p ps ih =>
    intro prev hprev hps c hc
    simp only [cbcEncBlocks, List.mem_cons] at hc
    have hcblk : IsBlock (E (xorBytes prev p)) :=
      hE _ (xorBytes_isBlock hprev (hps p (by simp)))
    rcases hc with rfl | hc
    · exact hcblk
    · exact ih (E (xorBytes prev p)) hcblk (fun q hq => hps q (by simp [hq])) c hc

theorem cbcEncBlocks_length (E : List Nat → List Nat) :
    ∀ ps prev, (cbcEncBlocks E prev ps).length = ps.length := by
  intro ps
  induction ps with
  | nil => intro prev; rfl
  | cons p ps ih => intro prev; simp [cbcEncBlocks, ih]

theorem cbcDec_cbcEnc (E D : List Nat → List Nat)
    (hED : ∀ b, IsBlock b → D (E b) = b)
    (hE : ∀ b, IsBlock b → IsBlock (E b)) :
    ∀ ps prev, IsBlock prev → (∀ p ∈ ps, IsBlock p) →
      cbcDecBlocks D prev (cbcEncBlocks E prev ps) = ps := by
  intro ps
  induction ps with
  | nil => intro prev _ _; rfl
  | cons p ps ih =>
    intro prev hprev hps
    have hpblk : IsBlock p := hps p (by simp)
    have hxblk : IsBlock (xorBytes prev p) := xorBytes_isBlock hprev hpblk
    have hcblk : IsBlock (E (xorBytes prev p)) := hE _ hxblk
    simp only [cbcEncBlocks, cbcDecBlocks]
    rw [hED _ hxblk,
      xorBytes_cancel prev p (by rw [hprev.1, hpblk.1]),
      ih (E (xorBytes prev p)) hcblk (fun q hq => hps q (by simp [hq]))]

theorem chunk16_flatten (bs : List Nat) : (chunk16 bs).flatten = bs := by
  induction bs using chunk16.induct with
  | case1 => simp [chunk16]
  | case2 b bs ih => rw [chunk16, List.flatten_cons, ih, List.take_append_drop]

theorem chunk16_blocks (bs : List Nat) :
    bs.length % 16 = 0 → ∀ b ∈ chunk16 bs, b.length = 16 := by
  induction bs using chunk16.induct with
  | case1 => simp [chunk16]
  | case2 b bs ih =>
    intro h blk hblk
    rw [chunk16] at hblk
    rcases List.mem_cons.1 hblk with rfl | hmem
    · simp only [List.length_take, List.length_cons]
      simp only [List.length_cons] at h
      omega
    · refine ih ?_ blk hmem
      simp only [List.length_drop, List.length_cons]
      simp only [List.length_cons] at h
      omega

theorem chunk16_mem_lt (bs : List Nat) :
    (∀ x ∈ bs, x < 256) → ∀ b ∈ chunk16 bs, ∀ x ∈ b, x < 256 := by
  induction bs using chunk16.induct with
  | case1 => simp [chunk16]
  | case2 b bs ih =>
    intro h blk hblk x hx
    rw [chunk16] at hblk
    rcases List.mem_cons.1 hblk with rfl | hmem
    · exact h x (List.take_subset _ _ hx)
    · exact ih (fun u hu => h u (List.drop_subset _ _ hu)) blk hmem x hx

theorem chunk16_length_pos (bs : List Nat) (h : 0 < bs.length) :
    0 < (chunk16 bs).length := by
  cases bs with
  | nil => simp at h
  | cons x xs => rw [chunk16]; simp

theorem chunk16_flatten_blocks :
    ∀ blocks : List (List Nat), (∀ b ∈ blocks, b.length = 16) →
      chunk16 blocks.flatten = blocks := by
  intro blocks
  induction blocks with
  | nil => intro _; simp [chunk16]
  | cons b bs ih =>
    intro h
    have hb : b.length = 16 := h b (by simp)
    obtain ⟨x, xs, rfl⟩ : ∃ x xs, b = x :: xs := by
      cases b with
      | nil => simp at hb
      | cons x xs => exact ⟨x, xs, rfl⟩
    have h1 : List.take 16 ((x :: xs) ++ bs.flatten) = x :: xs := by
      rw [← hb]; exact List.take_left _ _
    have h2 : List.drop 16 ((x :: xs) ++ bs.flatten) = bs.flatten := by
      rw [← hb]; exact List.drop_left _ _
    rw [List.flatten_cons, List.cons_append, chunk16, ← List.cons_append, h1, h2,
      ih (fun q hq => h q (by simp [hq]))]

theorem flatten_blocks_length :
    ∀ blocks : List (List Nat), (∀ b ∈ blocks, b.length = 16) →
      blocks.flatten.length = 16 * blocks.length := by
  intro blocks
  induction blocks with
  | nil => intro _; rfl
  | cons b bs ih =>
    intro h
    simp only [List.flatten_cons, List.length_append, List.length_cons,
      h b (by simp), ih (fun q hq => h q (by simp [hq]))]
    ring

theorem pkcs7pad_length_mod (bs : List Nat) : (pkcs7pad bs).length % 16 = 0 := by
  simp only [pkcs7pad, List.length_append, List.length_replicate]
  omega

theorem pkcs7pad_length_pos (bs : List Nat) : 0 < (pkcs7pad bs).length := by
  simp only [pkcs7pad, List.length_append, List.length_replicate]
  omega

theorem pkcs7pad_lt (bs : List Nat) (h : ∀ x ∈ bs, x < 256) :
    ∀ x ∈ pkcs7pad bs, x < 256 := by
  intro x hx
  rcases List.mem_append.1 hx with hx | hx
  · exact h x hx
  · have := (List.mem_replicate.1 hx).2
    omega

theorem pkcs7unpad_pkcs7pad (bs : List Nat) : pkcs7unpad (pkcs7pad bs) = some bs := by
  have hr1 : 1 ≤ 16 - bs.length % 16 := by omega
  have hr16 : 16 - bs.length % 16 ≤ 16 := by omega
  have hlen : (pkcs7pad bs).length = bs.length + (16 - bs.length % 16) := by
    simp [pkcs7pad]
  have hlast : (pkcs7pad bs).getLast? = some (16 - bs.length % 16) := by
    rw [pkcs7pad]
    have hrep : (List.replicate (16 - bs.length % 16) (16 - bs.length % 16)).getLast?
        = some (16 - bs.length % 16) := by
      obtain ⟨n, hn⟩ : ∃ n, 16 - bs.length % 16 = n + 1 :=
        ⟨16 - bs.length % 16 - 1, by omega⟩
      rw [hn, List.replicate_succ', List.getLast?_concat]
    rw [List.getLast?_append, hrep]
    rfl
  have hdrop : (pkcs7pad bs).drop ((pkcs7pad bs).length - (16 - bs.length % 16))
      = List.replicate (16 - bs.length % 16) (16 - bs.length % 16) := by
    rw [hlen, pkcs7pad]
    have he : bs.length + (16 - bs.length % 16) - (16 - bs.length % 16) = bs.length := by
      omega
    rw [he]
    exact List.drop_left _ _
  have htake : (pkcs7pad bs).take ((pkcs7pad bs).length - (16 - bs.length % 16)) = bs := by
    rw [hlen, pkcs7pad]
    have he : bs.length + (16 - bs.length % 16) - (16 - bs.length % 16) = bs.length := by
      omega
    rw [he]
    exact List.take_left _ _
  simp only [pkcs7unpad, hlast]
  rw [if_pos ⟨hr1, hr16, by omega, by rw [hdrop]; simp [List.all_eq_true, List.mem_replicate]⟩]
  rw [htake]

theorem isHexDigitChar_hexDigitChar (n : Nat) (h : n < 16) :
    isHexDigitChar (hexDigitChar n) = true := by
  interval_cases n <;> decide

theorem hexDigitVal_hexDigitChar (n : Nat) (h : n < 16) :
    hexDigitVal (hexDigitChar n) = n := by
  interval_cases n <;> decide

theorem hexDigitChar_ne_colon (n : Nat) (h : n < 16) : hexDigitChar n ≠ ':' := by
  interval_cases n <;> decide

theorem bytesToHex_length : ∀ bs : List Nat, (bytesToHex bs).length = 2 * bs.length := by
  intro bs
  induction bs with
  | nil => rfl
  | cons b bs ih => simp [bytesToHex, ih]; ring

theorem bytesToHex_no_colon (bs : List Nat) (h : ∀ x ∈ bs, x < 256) :
    ∀ c ∈ bytesToHex bs, c ≠ ':' := by
  induction bs with
  | nil => simp [bytesToHex]
  | cons b bs ih =>
    intro c hc
    have hb : b < 256 := h b (by simp)
    simp only [bytesToHex, List.mem_cons] at hc
    rcases hc with rfl | rfl | hc
    · exact hexDigitChar_ne_colon _ (by omega)
    · exact hexDigitChar_ne_colon _ (by omega)
    · exact ih (fun u hu => h u (by simp [hu])) c hc

theorem hexToBytes_bytesToHex : ∀ bs : List Nat, (∀ x ∈ bs, x < 256) →
    hexToBytes (bytesToHex bs) = bs := by
  intro bs
  induction bs with
  | nil => intro _; rfl
  | cons b bs ih =>
    intro h
    have hb : b < 256 := h b (by simp)
    have h1 : b / 16 < 16 := by omega
    have h2 : b % 16 < 16 := by omega
    rw [bytesToHex, hexToBytes, isHexDigitChar_hexDigitChar _ h1,
      isHexDigitChar_hexDigitChar _ h2]
    simp only [Bool.and_self, if_true, hexDigitVal_hexDigitChar _ h1,
      hexDigitVal_hexDigitChar _ h2, ih (fun u hu => h u (by simp [hu]))]
    rw [Nat.div_add_mod]

theorem splitOnChar_no_sep (sep : Char) :
    ∀ l : List Char, (∀ c ∈ l, c ≠ sep) → splitOnChar sep l = [l] := by
  intro l
  induction l with
  | nil => intro _; rfl
  | cons c cs ih =>
    intro h
    have hc : c ≠ sep := h c (by simp)
    rw [splitOnChar, if_neg hc, ih (fun u hu => h u (by simp [hu]))]

theorem splitOnChar_sep_mid (sep : Char) :
    ∀ a b : List Char, (∀ c ∈ a, c ≠ sep) → (∀ c ∈ b, c ≠ sep) →
      splitOnChar sep (a ++ sep :: b) = [a, b] := by
  intro a
  induction a with
  | nil =>
    intro b _ hb
    simp only [List.nil_append]
    rw [splitOnChar, if_pos rfl, splitOnChar_no_sep sep b hb]
  | cons c cs ih =>
    intro b ha hb
    have hc : c ≠ sep := ha c (by simp)
    rw [List.cons_append, splitOnChar, if_neg hc,
      ih b (fun u hu => ha u (by simp [hu])) hb]

theorem decrypt_encrypt (E D : List Nat → List Nat)
    (hED : ∀ b, IsBlock b → D (E b) = b) (hE : ∀ b, IsBlock b → IsBlock (E b))
    (iv : List Nat) (hiv : IsBlock iv) (s : List Nat) (hs : ∀ x ∈ s, x < 256) :
    decrypt D (encrypt E iv s) = .ok s := by
  have hblocks : ∀ b ∈ chunk16 (pkcs7pad s), IsBlock b := fun b hb =>
    ⟨chunk16_blocks (pkcs7pad s) (pkcs7pad_length_mod s) b hb,
      chunk16_mem_lt (pkcs7pad s) (pkcs7pad_lt s hs) b hb⟩
  have hctBlocks : ∀ c ∈ cbcEncBlocks E iv (chunk16 (pkcs7pad s)), IsBlock c :=
    cbcEncBlocks_isBlock E hE _ iv hiv hblocks
  have hctlen : ∀ c ∈ cbcEncBlocks E iv (chunk16 (pkcs7pad s)), c.length = 16 :=
    fun c hc => (hctBlocks c hc).1
  have hctlt : ∀ x ∈ (cbcEncBlocks E iv (chunk16 (pkcs7pad s))).flatten, x < 256 := by
    intro x hx
    obtain ⟨l, hl, hxl⟩ := List.mem_flatten.1 hx
    exact (hctBlocks l hl).2 x hxl
  have hsplit : splitOnChar ':'
      (bytesToHex iv ++ ':' :: bytesToHex (cbcEncBlocks E iv (chunk16 (pkcs7pad s))).flatten)
      = [bytesToHex iv,
          bytesToHex (cbcEncBlocks E iv (chunk16 (pkcs7pad s))).flatten] :=
    splitOnChar_sep_mid ':' _ _ (bytesToHex_no_colon iv hiv.2) (bytesToHex_no_colon _ hctlt)
  have hflatlen : (cbcEncBlocks E iv (chunk16 (pkcs7pad s))).flatten.length
      = 16 * (chunk16 (pkcs7pad s)).length := by
    rw [flatten_blocks_length _ hctlen, cbcEncBlocks_length]
  have hcnt : 0 < (chunk16 (pkcs7pad s)).length :=
    chunk16_length_pos _ (pkcs7pad_length_pos s)
  rw [encrypt]
  simp only [decrypt, hsplit]
  rw [hexToBytes_bytesToHex iv hiv.2, hexToBytes_bytesToHex _ hctlt]
  rw [if_pos ⟨hiv.1, by omega, by omega⟩]
  rw [chunk16_flatten_blocks _ hctlen,
    cbcDec_cbcEnc E D hED hE _ iv hiv hblocks,
    chunk16_flatten, pkcs7unpad_pkcs7pad]

theorem encrypt_ne_of_iv_ne (E : List Nat → List Nat) (iv1 iv2 s : List Nat)
    (h1 : IsBlock iv1) (h2 : IsBlock iv2) (hne : iv1 ≠ iv2) :
    encrypt E iv1 s ≠ encrypt E iv2 s := by
  intro heq
  rw [encrypt, encrypt] at heq
  have hlen : (bytesToHex iv1).length = (bytesToHex iv2).length := by
    rw [bytesToHex_length, bytesToHex_length, h1.1, h2.1]
  have hpre := (List.append_inj heq hlen).1
  have : iv1 = iv2 := by
    rw [← hexToBytes_bytesToHex iv1 h1.2, ← hexToBytes_bytesToHex iv2 h2.2, hpre]
  exact hne this

/-- Claim C2: with the AES-256 block permutation abstracted as an inverse
pair `(E, D)` under the fixed key, `decrypt(encrypt(s))` recovers every
plaintext byte string `s` exactly; and two encryptions of the same `s`
under distinct fresh IVs produce different `iv:ciphertext` strings, both of
which decrypt back to `s`. -/
theorem claim_c2 (E D : List Nat → List Nat)
    (hED : ∀ b, IsBlock b → D (E b) = b) (hE : ∀ b, IsBlock b → IsBlock (E b))
    (s : List Nat) (hs : ∀ x ∈ s, x < 256) (iv1 iv2 : List Nat)
    (h1 : IsBlock iv1) (h2 : IsBlock iv2) (hne : iv1 ≠ iv2) :
    decrypt D (encrypt E iv1 s) = .ok s
    ∧ decrypt D (encrypt E iv2 s) = .ok s
    ∧ encrypt E iv1 s ≠ encrypt E iv2 s :=
  ⟨decrypt_encrypt E D hED hE iv1 h1 s hs,
    decrypt_encrypt E D hED hE iv2 h2 s hs,
    encrypt_ne_of_iv_ne E iv1 iv2 s h1 h2 hne⟩

/-- Claim C2 witness: the identity block cipher, the two-byte plaintext
`"hi"` (bytes 104, 105) and two distinct concrete IVs. -/
theorem claim_c2_witness :
    decrypt id (encrypt id (List.replicate 16 0) [104, 105]) = .ok [104, 105] :=
  (claim_c2 id id (fun _ _ => rfl) (fun _ h => h) [104, 105] (by decide)
    (List.replicate 16 0) (1 :: List.replicate 15 0) ⟨by decide, by decide⟩
    ⟨by decide, by decide⟩ (by decide)).1
